import Mathlib

/-!
Verification of the session store, reconciliation engine, Strava sync adapter,
bulk JSON import and weekly aggregation of the cadence-training repository.

The TypeScript sources are embedded shallowly:
* numbers are `ℚ` (JS numbers are used here only for exact small arithmetic),
* ISO date strings and titles stay `String`,
* `uuidv4()` identifiers are modelled by a fresh-id counter on the store,
* asynchronous remote calls are recorded as explicit effect lists where a claim
  observes them and dropped where only the in-memory list matters,
* network responses (token refresh, per-activity detail fetch) are supplied as
  explicit oracle arguments.
-/

/-- Sport categories (`src/types/session.ts`, `Sport`). -/
inductive Sport where
  | cycling
  | running
  | strength
deriving DecidableEq, Repr

/-- One phase of a structured plan (`StructurePhase` in `src/types/session.ts`).
`structure` being a Lean keyword, the session field holding these is called
`structurePhases`. -/
structure StructurePhase where
  phase : String
  min : ℚ
  reps : Option ℕ := none
  ftp_pct : Option (ℚ × ℚ) := none
  hr_max_pct : Option (ℚ × ℚ) := none
  terrain : Option String := none
deriving DecidableEq, Repr

/-- Strava lap record (`StravaLap` in `src/types/session.ts`). -/
structure StravaLap where
  name : String
  elapsed_time : ℚ
  moving_time : ℚ
  distance : ℚ
  average_speed : ℚ
  max_speed : ℚ
  average_heartrate : Option ℚ := none
  max_heartrate : Option ℚ := none
  average_watts : Option ℚ := none
  average_cadence : Option ℚ := none
  total_elevation_gain : Option ℚ := none
deriving DecidableEq, Repr

/-- `SessionTemplate` (`src/types/session.ts`). -/
structure SessionTemplate where
  sport : Sport
  type : String
  title : String
  duration_min : ℚ
  description : String
  structurePhases : List StructurePhase := []
  actual_km : Option ℚ := none
  actual_elevation : Option ℚ := none
  strava_id : Option ℕ := none
  laps : Option (List StravaLap) := none
  average_heartrate : Option ℚ := none
  max_heartrate : Option ℚ := none
  average_watts : Option ℚ := none
  max_watts : Option ℚ := none
  average_cadence : Option ℚ := none
  coach_feedback : Option String := none
  planned_title : Option String := none
  planned_description : Option String := none
deriving DecidableEq, Repr

/-- `ScheduledSession` = `SessionTemplate` + identifier + ISO date. -/
structure ScheduledSession extends SessionTemplate where
  id : ℕ
  date : String
deriving DecidableEq, Repr

/-- `s.type === 'strava'`: the session is an imported "actual" activity. -/
def isStrava (s : ScheduledSession) : Bool := s.type == "strava"

/-- The dedup key, built in the source as the template string `${title}-${date}`. -/
def keyOf (s : ScheduledSession) : String := s.title ++ "-" ++ s.date

/-- The in-memory session store of `useSessions.ts`; `nextId` models the
`uuidv4()` generator (fresh identifiers, never reused). -/
structure Store where
  sessions : List ScheduledSession
  nextId : ℕ
deriving DecidableEq, Repr

/-- Assemble a `ScheduledSession` from a template, identifier and date,
as the source spreads `{...template, id, date}`. -/
def scheduleTemplate (t : SessionTemplate) (id : ℕ) (date : String) : ScheduledSession :=
  { toSessionTemplate := t, id := id, date := date }

/-- `addSession` (`useSessions.ts` 145-168): optimistic push of
`{...template, id: uuidv4(), date}`. -/
def Store.addSession (st : Store) (t : SessionTemplate) (date : String) : Store :=
  { sessions := st.sessions ++ [scheduleTemplate t st.nextId date],
    nextId := st.nextId + 1 }

/-- `findIndex` + `splice(index, 1)` of `removeSession`: drop the first session
carrying the identifier, keep the list unchanged when none does. -/
def removeFirstById : List ScheduledSession → ℕ → List ScheduledSession
  | [], _ => []
  | s :: rest, i => if s.id == i then rest else s :: removeFirstById rest i

/-- In-memory effect of `removeSession` (`useSessions.ts` 225-238). -/
def Store.removeSession (st : Store) (i : ℕ) : Store :=
  { st with sessions := removeFirstById st.sessions i }

/-- Remote persistence calls issued by the store operations. -/
inductive DbOp where
  | createOp (s : ScheduledSession)
  | updateOp (s : ScheduledSession)
  | deleteOp (id : ℕ)
deriving DecidableEq, Repr

/-- `removeSession` (`useSessions.ts` 225-238) with its effects: the splice, the
`saveToCache()` write count and the remote delete are all guarded by
`findIndex !== -1`. -/
def removeSessionFx (ss : List ScheduledSession) (sid : ℕ) :
    List ScheduledSession × ℕ × List DbOp :=
  if ss.any (fun s => s.id == sid) then
    (removeFirstById ss sid, 1, [DbOp.deleteOp sid])
  else
    (ss, 0, [])

/-- In-place mutation of the found session's `coach_feedback` field. -/
def setFeedbackFirst (fb : String) : List ScheduledSession → ℕ → List ScheduledSession
  | [], _ => []
  | s :: rest, i =>
      if s.id == i then { s with coach_feedback := some fb } :: rest
      else s :: setFeedbackFirst fb rest i

/-- `updateSessionFeedback` (`useSessions.ts` 210-223) with its effects: the
mutation, cache write and remote update happen only when `find` succeeds. -/
def updateSessionFeedbackFx (ss : List ScheduledSession) (sid : ℕ) (fb : String) :
    List ScheduledSession × ℕ × List DbOp :=
  match ss.find? (fun s => s.id == sid) with
  | some s => (setFeedbackFirst fb ss sid, 1, [DbOp.updateOp { s with coach_feedback := some fb }])
  | none => (ss, 0, [])

/-- Raw Strava activity (`StravaActivity` in `useStrava.ts`). -/
structure StravaActivity where
  id : ℕ
  name : String
  type : String
  sport_type : String
  start_date_local : String
  moving_time : ℚ
  distance : ℚ
  total_elevation_gain : ℚ
  average_heartrate : Option ℚ := none
  max_heartrate : Option ℚ := none
  average_watts : Option ℚ := none
  max_watts : Option ℚ := none
  average_cadence : Option ℚ := none
deriving DecidableEq, Repr

/-- `StravaDetailedActivity`: the raw activity plus optional laps. -/
structure StravaDetailedActivity extends StravaActivity where
  laps : Option (List StravaLap) := none
deriving DecidableEq, Repr

/-- `mapStravaToSport` (`useStrava.ts` 253-264); `sport_type || type` with the
empty string as the falsy case. -/
def mapStravaToSport (a : StravaActivity) : Option Sport :=
  let t := if a.sport_type == "" then a.type else a.sport_type
  if ["Ride", "VirtualRide", "MountainBikeRide", "GravelRide", "EBikeRide"].contains t then
    some Sport.cycling
  else if ["Run", "TrailRun", "VirtualRun", "Treadmill", "Soccer", "Football"].contains t then
    some Sport.running
  else if ["WeightTraining", "Workout", "Crossfit", "Yoga", "HIIT"].contains t then
    some Sport.strength
  else
    none

/-- JavaScript `Math.round`: half rounds up. -/
def jsRound (q : ℚ) : ℤ := (q + 1/2).floor

/-- `start_date_local.split('T')[0]`: the day part of the local start timestamp. -/
def activityDate (a : StravaActivity) : String :=
  ⟨a.start_date_local.data.takeWhile (fun c => !(c == 'T'))⟩

/-- The `${activity.name}-${date}` dedup key of an incoming activity. -/
def activityKey (a : StravaActivity) : String := a.name ++ "-" ++ activityDate a

/-- The generated description `${distanceKm} km` with the optional
` • ${round(elevation)}m D+` suffix (0 elevation is falsy); numeral rendering
is the Lean `reprStr`, a detail no claim observes. -/
def activityDescription (km elev : ℚ) : String :=
  (reprStr km ++ " km") ++ (if elev == 0 then "" else " • " ++ reprStr (jsRound elev) ++ "m D+")

/-- The session template built for one mapped activity by `convertToSessions`
(`useStrava.ts` 266-312): duration from moving time, distance rounded to one
decimal, elevation rounded (0 stays 0, being falsy), laps kept only when
non-empty. -/
def activityTemplate (a : StravaDetailedActivity) (sport : Sport) : SessionTemplate :=
  let durationMin : ℚ := (jsRound (a.moving_time / 60) : ℚ)
  let distanceKm : ℚ := (jsRound (a.distance / 1000 * 10) : ℚ) / 10
  let lapList := a.laps.getD []
  { sport := sport
    type := "strava"
    title := a.name
    duration_min := durationMin
    description := activityDescription distanceKm a.total_elevation_gain
    structurePhases := []
    actual_km := some distanceKm
    actual_elevation := some (if (a.total_elevation_gain : ℚ) = 0 then (0 : ℚ) else (jsRound a.total_elevation_gain : ℚ))
    strava_id := some a.id
    laps := if lapList.length > 0 then some lapList else none
    average_heartrate := a.average_heartrate
    max_heartrate := a.max_heartrate
    average_watts := a.average_watts
    max_watts := a.max_watts
    average_cadence := a.average_cadence }

/-- `convertToSessions` (`useStrava.ts` 266-312): map each activity to a
session template plus day-granular date, silently dropping activities whose
type maps to no sport. -/
def convertToSessions (acts : List StravaDetailedActivity) : List (SessionTemplate × String) :=
  acts.filterMap (fun a =>
    (mapStravaToSport a.toStravaActivity).map (fun sport =>
      (activityTemplate a sport, activityDate a.toStravaActivity)))

/-- The `${title}-${date}` keys of the already imported ("strava") sessions
(`syncStrava`, `src/unnamed/part_001` 263-267). -/
def stravaKeys (ss : List ScheduledSession) : List String :=
  (ss.filter isStrava).map keyOf

/-- `newActivities` filter of the skip-mode sync (`part_001` 269-273): keep
only activities whose key is not already imported. -/
def filterNewActivities (ss : List ScheduledSession) (acts : List StravaDetailedActivity) :
    List StravaDetailedActivity :=
  acts.filter (fun a => !(stravaKeys ss).contains (activityKey a.toStravaActivity))

/-- The incoming actual session with the displaced planned session's title and
description captured in the replaced-planned snapshot fields
(`sessionToAdd.planned_title = plannedSameSport.title`, ...). -/
def displacedTemplate (t : SessionTemplate) (p : ScheduledSession) : SessionTemplate :=
  { t with planned_title := some p.title, planned_description := some p.description }

/-- One iteration of the reconciliation loop of `syncStrava`
(`part_001` 288-309): displace the first planned session of the same day and
sport, snapshotting its title and description, then add the actual session. -/
def syncStravaStep (st : Store) (item : SessionTemplate × String) : Store :=
  let session := item.1
  let date := item.2
  match st.sessions.find? (fun s => s.date == date && s.sport == session.sport && !isStrava s) with
  | some planned => (st.removeSession planned.id).addSession (displacedTemplate session planned) date
  | none => st.addSession session date

/-- `syncStrava` (`src/unnamed/part_001` 258-326), skip-mode dedup: activities
already present as a "strava" session by `${title}-${date}` key are dropped,
the rest are detail-enriched (modelled by taking the already enriched batch)
and reconciled in input order. -/
def syncStrava (st : Store) (acts : List StravaDetailedActivity) : Store :=
  (convertToSessions (filterNewActivities st.sessions acts)).foldl syncStravaStep st

/-- The `findIndex` + in-place assignment update branch of the legacy
`syncStrava` (`src/src/App.vue` 151-167): overwrite the first
`${title}-${date}` key match with the re-imported fields, keeping the existing
identifier; `none` when no session carries the key. -/
def appVueUpdate (session : SessionTemplate) (date : String) :
    List ScheduledSession → Option (List ScheduledSession)
  | [] => none
  | s :: rest =>
      if keyOf s == session.title ++ "-" ++ date then
        some (scheduleTemplate session s.id date :: rest)
      else
        (appVueUpdate session date rest).map (fun r => s :: r)

/-- One iteration of the legacy `syncStrava` loop (`src/src/App.vue` 151-187):
update in place on a key match, otherwise delete every planned session of the
day (any sport) and append the new actual session. -/
def appVueStep (st : Store) (item : SessionTemplate × String) : Store :=
  let session := item.1
  let date := item.2
  match appVueUpdate session date st.sessions with
  | some ss => { st with sessions := ss }
  | none =>
      let plannedOnSameDay := st.sessions.filter (fun s => s.date == date && !isStrava s)
      let st1 := plannedOnSameDay.foldl (fun acc p => acc.removeSession p.id) st
      st1.addSession session date

/-- The legacy `syncStrava` of `src/src/App.vue` (142-207), update-mode dedup. -/
def appVueSyncStrava (st : Store) (acts : List StravaDetailedActivity) : Store :=
  (convertToSessions acts).foldl appVueStep st

/-- An item of the bulk import document (`loadFromJson`, `useSessions.ts`
75-143): a full session record (carries `id` and `date`) is trusted as-is,
anything else is a template with an optional date. -/
inductive ImportItem where
  | full (s : ScheduledSession)
  | tmpl (t : SessionTemplate) (date : Option String)
deriving DecidableEq, Repr

/-- The `jsonData.map` phase of `loadFromJson`: full sessions pass through,
templates get a fresh identifier and `date ?? today`. Returns the
materialized batch and the advanced fresh-id counter. -/
def materializeItems (today : String) : ℕ → List ImportItem → List ScheduledSession × ℕ
  | n, [] => ([], n)
  | n, ImportItem.full s :: rest =>
      let r := materializeItems today n rest
      (s :: r.1, r.2)
  | n, ImportItem.tmpl t d :: rest =>
      let r := materializeItems today (n + 1) rest
      (scheduleTemplate t n (d.getD today) :: r.1, r.2)

/-- The `findIndex`-by-key overwrite of the `loadFromJson` insertion loop
(`useSessions.ts` 106-122): the first `${title}-${date}` key match is
overwritten in place unless it is a "strava" session (then the incoming item is
dropped); `none` when no session carries the key. -/
def bulkUpsert (n : ScheduledSession) : List ScheduledSession → Option (List ScheduledSession)
  | [] => none
  | s :: rest =>
      if keyOf s == keyOf n then
        some (if isStrava s then s :: rest else n :: rest)
      else
        (bulkUpsert n rest).map (fun r => s :: r)

/-- One iteration of the `loadFromJson` insertion loop: overwrite the key match
or append as a new session. -/
def bulkInsertStep (ss : List ScheduledSession) (n : ScheduledSession) : List ScheduledSession :=
  match bulkUpsert n ss with
  | some r => r
  | none => ss ++ [n]

/-- The `replaceExisting` deletion phase of `loadFromJson` (`useSessions.ts`
94-104): drop every non-"strava" session whose date occurs in the incoming
batch. -/
def replaceExistingClean (importDates : List String) (ss : List ScheduledSession) :
    List ScheduledSession :=
  ss.filter (fun s => !(importDates.contains s.date && !isStrava s))

/-- `loadFromJson` (`useSessions.ts` 75-143): materialize the batch, optionally
clear the incoming dates of non-actual sessions, then upsert item by item. -/
def loadFromJson (st : Store) (items : List ImportItem) (replaceExisting : Bool)
    (today : String) : Store :=
  let m := materializeItems today st.nextId items
  let newSessions := m.1
  let importDates := newSessions.map (fun s => s.date)
  let base := if replaceExisting then replaceExistingClean importDates st.sessions else st.sessions
  { sessions := newSessions.foldl bulkInsertStep base, nextId := m.2 }

/-- `exportToJson` (`useSessions.ts` 260-263): the portable document holds
every non-"strava" session, verbatim. -/
def exportToJson (ss : List ScheduledSession) : List ScheduledSession :=
  ss.filter (fun s => !isStrava s)

/-- Cycling estimation constants (`ESTIMATES` in `src/types/session.ts`). -/
structure CyclingEstimates where
  avgSpeedKmh : ℚ
  avgElevationPerHour : ℚ
deriving DecidableEq, Repr

/-- Running estimation constants (`ESTIMATES` in `src/types/session.ts`). -/
structure RunningEstimates where
  avgSpeedKmh : ℚ
deriving DecidableEq, Repr

/-- The two per-sport estimation blocks of `ESTIMATES`. -/
structure Estimates where
  cycling : CyclingEstimates
  running : RunningEstimates
deriving DecidableEq, Repr

/-- `ESTIMATES` (`src/types/session.ts` 117-126): 28 km/h cycling,
60/6.5 km/h (6:30/km) running. -/
def ESTIMATES : Estimates :=
  { cycling := { avgSpeedKmh := 28, avgElevationPerHour := 500 },
    running := { avgSpeedKmh := 60 / 6.5 } }

/-- Per-sport accumulator of `WeeklyStats` (cycling/running branches). -/
structure SportAgg where
  hours : ℚ
  km : ℚ
  elevation : ℚ
  planned : ℚ
  accomplished : ℚ
deriving DecidableEq, Repr

/-- Strength accumulator of `WeeklyStats` (no distance). -/
structure StrengthAgg where
  hours : ℚ
  planned : ℚ
  accomplished : ℚ
deriving DecidableEq, Repr

/-- Grand-total accumulator of `WeeklyStats`. -/
structure TotalAgg where
  hours : ℚ
  sessions : ℕ
deriving DecidableEq, Repr

/-- Global planned/accomplished accumulator of `WeeklyStats`. -/
structure SplitAgg where
  hours : ℚ
  sessions : ℕ
deriving DecidableEq, Repr

/-- The derived `WeeklyStats` record (`useSessions.ts` 309-371). -/
structure WeeklyStatsData where
  cycling : SportAgg
  running : SportAgg
  strength : StrengthAgg
  total : TotalAgg
  planned : SplitAgg
  accomplished : SplitAgg
deriving DecidableEq, Repr

/-- One `weekSessions.forEach` iteration of the `weeklyStats` computed value:
hours always accumulate; km fall back to `hours * avgSpeedKmh` when the session
has no `actual_km`; elevation falls back to 0. -/
def statsStep (acc : WeeklyStatsData) (s : ScheduledSession) : WeeklyStatsData :=
  let hours := s.duration_min / 60
  let isAccomplished := isStrava s
  let acc1 :=
    match s.sport with
    | Sport.cycling =>
        { acc with cycling :=
          { hours := acc.cycling.hours + hours
            km := acc.cycling.km + s.actual_km.getD (hours * ESTIMATES.cycling.avgSpeedKmh)
            elevation := acc.cycling.elevation + s.actual_elevation.getD 0
            accomplished := if isAccomplished then acc.cycling.accomplished + hours else acc.cycling.accomplished
            planned := if isAccomplished then acc.cycling.planned else acc.cycling.planned + hours } }
    | Sport.running =>
        { acc with running :=
          { hours := acc.running.hours + hours
            km := acc.running.km + s.actual_km.getD (hours * ESTIMATES.running.avgSpeedKmh)
            elevation := acc.running.elevation + s.actual_elevation.getD 0
            accomplished := if isAccomplished then acc.running.accomplished + hours else acc.running.accomplished
            planned := if isAccomplished then acc.running.planned else acc.running.planned + hours } }
    | Sport.strength =>
        { acc with strength :=
          { hours := acc.strength.hours + hours
            accomplished := if isAccomplished then acc.strength.accomplished + hours else acc.strength.accomplished
            planned := if isAccomplished then acc.strength.planned else acc.strength.planned + hours } }
  let acc2 := { acc1 with total := { acc1.total with hours := acc1.total.hours + hours } }
  if isAccomplished then
    { acc2 with accomplished :=
      { hours := acc2.accomplished.hours + hours, sessions := acc2.accomplished.sessions + 1 } }
  else
    { acc2 with planned :=
      { hours := acc2.planned.hours + hours, sessions := acc2.planned.sessions + 1 } }

/-- `weeklyStats` (`useSessions.ts` 309-371). The source filters the sessions
whose parsed date falls inside the displayed week's `[start, end]` range; the
day-granular membership test `start <= new Date(s.date) <= end` is passed in as
the predicate `inWeek`. `total.sessions` is the week's session count, set
before the accumulation loop. -/
def weeklyStats (inWeek : String → Bool) (ss : List ScheduledSession) : WeeklyStatsData :=
  let weekSessions := ss.filter (fun s => inWeek s.date)
  weekSessions.foldl statsStep
    { cycling := { hours := 0, km := 0, elevation := 0, planned := 0, accomplished := 0 }
      running := { hours := 0, km := 0, elevation := 0, planned := 0, accomplished := 0 }
      strength := { hours := 0, planned := 0, accomplished := 0 }
      total := { hours := 0, sessions := weekSessions.length }
      planned := { hours := 0, sessions := 0 }
      accomplished := { hours := 0, sessions := 0 } }

/-- The persisted Strava token triple (`StravaTokens` in `useStrava.ts`). -/
structure StravaTokens where
  access_token : String
  refresh_token : String
  expires_at : ℤ
deriving DecidableEq, Repr

/-- The adapter's stored-token state (the `tokens` ref of `useStrava.ts`,
mirrored in durable local storage). -/
structure TokenState where
  tokens : Option StravaTokens
deriving DecidableEq, Repr

/-- `refreshAccessToken` (`useStrava.ts` 116-149). The network outcome of the
refresh-token exchange is the oracle `resp`: `some nt` is a 200 response with
the new triple, `none` is any failure. On failure the stored tokens are
cleared; with no stored triple the call just reports failure. -/
def refreshAccessToken (st : TokenState) (resp : Option StravaTokens) : TokenState × Bool :=
  match st.tokens with
  | none => (st, false)
  | some _ =>
      match resp with
      | some nt => ({ tokens := some nt }, true)
      | none => ({ tokens := none }, false)

/-- `getValidToken` (`useStrava.ts` 151-162): refresh when
`expires_at < now + 60`, else hand out the stored access token. Returns the
final state, the token result, and the number of refresh-token exchanges
performed. -/
def getValidToken (st : TokenState) (now : ℤ) (resp : Option StravaTokens) :
    TokenState × Option String × ℕ :=
  match st.tokens with
  | none => (st, none, 0)
  | some t =>
      if t.expires_at < now + 60 then
        let r := refreshAccessToken st resp
        if r.2 then
          (r.1, (r.1.tokens.map (fun nt => nt.access_token)), 1)
        else
          (r.1, none, 1)
      else
        (st, some t.access_token, 0)

/-- A coarse activity viewed as a detailed one (the
`activity as StravaDetailedActivity` fallback): no lap data. -/
def coarseDetailed (a : StravaActivity) : StravaDetailedActivity :=
  { toStravaActivity := a, laps := none }

/-- `fetchActivitiesWithDetails` (`useStrava.ts` 219-251): one sequential
detail fetch per activity, falling back to the coarse record when the per-item
fetch fails. The per-item network outcome is the oracle `detailOf`. -/
def fetchActivitiesWithDetails (detailOf : ℕ → Option StravaDetailedActivity)
    (acts : List StravaActivity) : List StravaDetailedActivity :=
  acts.foldl (fun out a =>
    match detailOf a.id with
    | some d => out ++ [d]
    | none => out ++ [coarseDetailed a]) []

/-- The sessions carrying a given `${title}-${date}` dedup key. -/
def filterKey (k : String) (ss : List ScheduledSession) : List ScheduledSession :=
  ss.filter (fun s => keyOf s == k)

/-- Store well-formedness: identifiers are pairwise distinct and below the
fresh-id counter — the invariant the `uuidv4()` generator provides. -/
def StoreWF (st : Store) : Prop :=
  (st.sessions.map (fun s => s.id)).Nodup ∧
    ∀ i ∈ st.sessions.map (fun s => s.id), i < st.nextId

lemma removeFirstById_sublist (ss : List ScheduledSession) (i : ℕ) :
    List.Sublist (removeFirstById ss i) ss := by
  induction ss with
  | nil => simp [removeFirstById]
  | cons x rest ih =>
      rw [removeFirstById]
      by_cases h : (x.id == i) = true
      · rw [if_pos h]; exact List.sublist_cons_self x rest
      · rw [if_neg h]; exact List.Sublist.cons₂ x ih

lemma mem_removeFirstById (ss : List ScheduledSession) (i : ℕ) (s : ScheduledSession)
    (hs : s ∈ ss) (hne : s.id ≠ i) : s ∈ removeFirstById ss i := by
  induction ss with
  | nil => simp at hs
  | cons x rest ih =>
      rw [removeFirstById]
      by_cases h : (x.id == i) = true
      · rw [if_pos h]
        rcases List.mem_cons.mp hs with rfl | hmem
        · exact absurd (beq_iff_eq.mp h) hne
        · exact hmem
      · rw [if_neg h]
        rcases List.mem_cons.mp hs with rfl | hmem
        · exact List.mem_cons_self _ _
        · exact List.mem_cons_of_mem _ (ih hmem)

lemma filter_removeFirstById (p : ScheduledSession → Bool) (ss : List ScheduledSession)
    (i : ℕ) (h : ∀ s ∈ ss, s.id = i → p s = false) :
    (removeFirstById ss i).filter p = ss.filter p := by
  induction ss with
  | nil => simp [removeFirstById]
  | cons x rest ih =>
      rw [removeFirstById]
      by_cases hx : (x.id == i) = true
      · rw [if_pos hx]
        have hpx : p x = false := h x (List.mem_cons_self _ _) (beq_iff_eq.mp hx)
        simp [List.filter_cons, hpx]
      · rw [if_neg hx]
        have ih2 := ih (fun s hs => h s (List.mem_cons_of_mem _ hs))
        simp [List.filter_cons, ih2]

lemma ids_ne_of_removeFirstById (ss : List ScheduledSession) (p : ScheduledSession)
    (hnodup : (ss.map (fun s => s.id)).Nodup) (hp : p ∈ ss) :
    ∀ s ∈ removeFirstById ss p.id, s.id ≠ p.id := by
  induction ss with
  | nil => simp [removeFirstById]
  | cons x rest ih =>
      rw [removeFirstById]
      rw [List.map_cons, List.nodup_cons] at hnodup
      by_cases hx : (x.id == p.id) = true
      · rw [if_pos hx]
        intro s hs he
        have : x.id ∈ rest.map (fun s => s.id) := by
          rw [← beq_iff_eq.mp hx] at he
          exact he ▸ List.mem_map_of_mem _ hs
        exact hnodup.1 this
      · rw [if_neg hx]
        have hpx : p ≠ x := fun he => hx (by rw [he]; exact beq_self_eq_true _)
        have hprest : p ∈ rest := by
          rcases List.mem_cons.mp hp with h1 | h2
          · exact absurd h1 hpx
          · exact h2
        intro s hs
        rcases List.mem_cons.mp hs with rfl | hmem
        · exact fun he => hx (beq_iff_eq.mpr he)
        · exact ih hnodup.2 hprest s hmem

lemma find?_of_filter_singleton (pbig q : ScheduledSession → Bool)
    (ss : List ScheduledSession) (a : ScheduledSession)
    (hf : ss.filter pbig = [a])
    (himp : ∀ s, q s = true → pbig s = true)
    (hqa : q a = true) : ss.find? q = some a := by
  induction ss with
  | nil => simp at hf
  | cons x rest ih =>
      by_cases hq : q x = true
      · have hpx := himp x hq
        rw [List.filter_cons_of_pos hpx] at hf
        have hxa : x = a := (List.cons_eq_cons.mp hf).1
        rw [List.find?_cons_of_pos _ hq, hxa]
      · rw [List.find?_cons_of_neg _ (by simpa using hq)]
        by_cases hp : pbig x = true
        · rw [List.filter_cons_of_pos hp] at hf
          have hxa : x = a := (List.cons_eq_cons.mp hf).1
          rw [hxa] at hq
          exact absurd hqa hq
        · rw [List.filter_cons_of_neg (by simpa using hp)] at hf
          exact ih hf

lemma mem_of_filter_singleton (p : ScheduledSession → Bool) (ss : List ScheduledSession)
    (a : ScheduledSession) (hf : ss.filter p = [a]) : a ∈ ss ∧ p a = true := by
  have : a ∈ ss.filter p := by rw [hf]; exact List.mem_cons_self _ _
  exact ⟨(List.mem_filter.mp this).1, (List.mem_filter.mp this).2⟩

lemma StoreWF.removeSession {st : Store} (h : StoreWF st) (i : ℕ) :
    StoreWF (st.removeSession i) := by
  have hsub : List.Sublist ((removeFirstById st.sessions i).map (fun s => s.id))
      (st.sessions.map (fun s => s.id)) :=
    (removeFirstById_sublist st.sessions i).map _
  exact ⟨h.1.sublist hsub, fun j hj => h.2 j (hsub.subset hj)⟩

lemma StoreWF.addSession {st : Store} (h : StoreWF st) (t : SessionTemplate) (d : String) :
    StoreWF (st.addSession t d) := by
  constructor
  · rw [Store.addSession]
    simp only [List.map_append, List.map_cons, List.map_nil]
    rw [List.nodup_append]
    refine ⟨h.1, List.nodup_singleton _, ?_⟩
    intro j hj
    have := h.2 j hj
    simp [scheduleTemplate]
    omega
  · intro j hj
    rw [Store.addSession] at hj
    simp only [List.map_append, List.map_cons, List.map_nil] at hj
    rcases List.mem_append.mp hj with hl | hr
    · have := h.2 j hl
      simp [Store.addSession]
      omega
    · simp [scheduleTemplate] at hr
      simp [Store.addSession, hr]

/-- Per-session cycling distance as accumulated by `weeklyStats`:
`actual_km ?? hours * ESTIMATES.cycling.avgSpeedKmh`. -/
def cyclingKmContribution (s : ScheduledSession) : ℚ :=
  s.actual_km.getD (s.duration_min / 60 * ESTIMATES.cycling.avgSpeedKmh)

/-- Per-session running distance as accumulated by `weeklyStats`:
`actual_km ?? hours * ESTIMATES.running.avgSpeedKmh`. -/
def runningKmContribution (s : ScheduledSession) : ℚ :=
  s.actual_km.getD (s.duration_min / 60 * ESTIMATES.running.avgSpeedKmh)

lemma foldl_statsStep_cycling_km :
    ∀ (l : List ScheduledSession) (acc : WeeklyStatsData),
      (l.foldl statsStep acc).cycling.km
        = acc.cycling.km
          + ((l.filter (fun s => s.sport == Sport.cycling)).map cyclingKmContribution).sum := by
  intro l
  induction l with
  | nil => intro acc; simp
  | cons s rest ih =>
      intro acc
      rw [List.foldl_cons, ih, List.filter_cons]
      cases hsp : s.sport <;> cases hacc : isStrava s <;>
        simp [statsStep, hsp, hacc, cyclingKmContribution] <;> ring

lemma foldl_statsStep_running_km :
    ∀ (l : List ScheduledSession) (acc : WeeklyStatsData),
      (l.foldl statsStep acc).running.km
        = acc.running.km
          + ((l.filter (fun s => s.sport == Sport.running)).map runningKmContribution).sum := by
  intro l
  induction l with
  | nil => intro acc; simp
  | cons s rest ih =>
      intro acc
      rw [List.foldl_cons, ih, List.filter_cons]
      cases hsp : s.sport <;> cases hacc : isStrava s <;>
        simp [statsStep, hsp, hacc, runningKmContribution] <;> ring

/-- C9: in the weekly aggregation, every cycling/running session of the
displayed week contributes its `actual_km` when recorded and otherwise the
estimate `hours * avgSpeedKmh` (28 km/h cycling, 60/6.5 km/h running) to the
per-sport km total — so sessions without a recorded distance (in particular
planned ones) inflate the distance totals rather than contributing zero. -/
theorem weeklyStats_km_estimates (inWeek : String → Bool) (ss : List ScheduledSession) :
    (weeklyStats inWeek ss).cycling.km
      = (((ss.filter (fun s => inWeek s.date)).filter
            (fun s => s.sport == Sport.cycling)).map cyclingKmContribution).sum ∧
    (weeklyStats inWeek ss).running.km
      = (((ss.filter (fun s => inWeek s.date)).filter
            (fun s => s.sport == Sport.running)).map runningKmContribution).sum ∧
    ESTIMATES.cycling.avgSpeedKmh = 28 ∧
    ESTIMATES.running.avgSpeedKmh = 60 / 6.5 := by
  refine ⟨?_, ?_, rfl, rfl⟩
  · simp only [weeklyStats]
    rw [foldl_statsStep_cycling_km]
    simp
  · simp only [weeklyStats]
    rw [foldl_statsStep_running_km]
    simp

/-- C10: for a session identifier absent from the store, `removeSession` and
`updateSessionFeedback` are complete no-ops: the in-memory list is unchanged,
no cache write happens and no remote persistence call is issued. -/
theorem absent_id_noops (ss : List ScheduledSession) (sid : ℕ) (fb : String)
    (h : ∀ s ∈ ss, s.id ≠ sid) :
    removeSessionFx ss sid = (ss, 0, []) ∧
    updateSessionFeedbackFx ss sid fb = (ss, 0, []) := by
  have hany : ss.any (fun s => s.id == sid) = false := by
    rw [List.any_eq_false]
    intro s hs
    simpa using h s hs
  have hfind : ss.find? (fun s => s.id == sid) = none := by
    rw [List.find?_eq_none]
    intro s hs
    simpa using h s hs
  constructor
  · rw [removeSessionFx, hany]
    simp
  · rw [updateSessionFeedbackFx, hfind]

/-- Concrete planned session used by witnesses and counterexamples. -/
@[reducible] def mkPlanned (i : ℕ) (sport : Sport) (ty title desc date : String) (dur : ℚ) :
    ScheduledSession :=
  { sport := sport, type := ty, title := title, duration_min := dur,
    description := desc, id := i, date := date }

/-- Witness for C10 at a concrete store and absent identifier. -/
theorem absent_id_noops_witness :
    (∀ s ∈ [mkPlanned 1 Sport.cycling "endurance" "Sortie" "d" "2025-03-10" 60], s.id ≠ 5) ∧
    (removeSessionFx [mkPlanned 1 Sport.cycling "endurance" "Sortie" "d" "2025-03-10" 60] 5
        = ([mkPlanned 1 Sport.cycling "endurance" "Sortie" "d" "2025-03-10" 60], 0, []) ∧
      updateSessionFeedbackFx [mkPlanned 1 Sport.cycling "endurance" "Sortie" "d" "2025-03-10" 60] 5 "fb"
        = ([mkPlanned 1 Sport.cycling "endurance" "Sortie" "d" "2025-03-10" 60], 0, [])) := by
  have h : ∀ s ∈ [mkPlanned 1 Sport.cycling "endurance" "Sortie" "d" "2025-03-10" 60], s.id ≠ 5 := by
    decide
  exact ⟨h, absent_id_noops _ 5 "fb" h⟩

/-- C8: the detail-enrichment fetch never aborts the batch nor drops an item —
each activity whose per-item detail fetch fails falls back to its coarse
record, and the result has exactly one entry per input activity, in input
order. -/
theorem detail_fetch_per_item (detailOf : ℕ → Option StravaDetailedActivity)
    (acts : List StravaActivity) :
    fetchActivitiesWithDetails detailOf acts
      = acts.map (fun a => (detailOf a.id).getD (coarseDetailed a)) ∧
    (fetchActivitiesWithDetails detailOf acts).length = acts.length := by
  have aux : ∀ (l : List StravaActivity) (out : List StravaDetailedActivity),
      (l.foldl (fun out a =>
        match detailOf a.id with
        | some d => out ++ [d]
        | none => out ++ [coarseDetailed a]) out)
        = out ++ l.map (fun a => (detailOf a.id).getD (coarseDetailed a)) := by
    intro l
    induction l with
    | nil => intro out; simp
    | cons a rest ih =>
        intro out
        rw [List.foldl_cons, List.map_cons]
        cases h : detailOf a.id with
        | some d => simp [h, ih]
        | none => simp [h, ih]
  constructor
  · rw [fetchActivitiesWithDetails, aux]
    simp
  · rw [fetchActivitiesWithDetails, aux]
    simp

/-- The 2-hour cycling "actual" session of the C7 scenario. -/
def wk7CyclingActual : ScheduledSession :=
  { sport := Sport.cycling, type := "strava", title := "Sortie longue",
    duration_min := 120, description := "56 km", actual_km := some 56,
    actual_elevation := some 800, id := 1, date := "2025-03-10" }

/-- The 1-hour cycling planned session of the C7 scenario. -/
def wk7CyclingPlanned : ScheduledSession :=
  { sport := Sport.cycling, type := "endurance", title := "Tempo",
    duration_min := 60, description := "plan", id := 2, date := "2025-03-11" }

/-- The 1-hour running "actual" session of the C7 scenario. -/
def wk7RunningActual : ScheduledSession :=
  { sport := Sport.running, type := "strava", title := "Footing",
    duration_min := 60, description := "9 km", actual_km := some 9,
    id := 3, date := "2025-03-12" }

/-- C7: on the store {2h cycling actual, 1h cycling planned, 1h running
actual}, all inside the displayed week, the aggregation reports
cycling.accomplished = 2 h, cycling.planned = 1 h, running.accomplished = 1 h,
total.hours = 4 and total.sessions = 3. -/
theorem weekly_aggregation_scenario (inWeek : String → Bool)
    (h1 : inWeek "2025-03-10" = true) (h2 : inWeek "2025-03-11" = true)
    (h3 : inWeek "2025-03-12" = true) :
    (weeklyStats inWeek [wk7CyclingActual, wk7CyclingPlanned, wk7RunningActual]).cycling.accomplished = 2 ∧
    (weeklyStats inWeek [wk7CyclingActual, wk7CyclingPlanned, wk7RunningActual]).cycling.planned = 1 ∧
    (weeklyStats inWeek [wk7CyclingActual, wk7CyclingPlanned, wk7RunningActual]).running.accomplished = 1 ∧
    (weeklyStats inWeek [wk7CyclingActual, wk7CyclingPlanned, wk7RunningActual]).total.hours = 4 ∧
    (weeklyStats inWeek [wk7CyclingActual, wk7CyclingPlanned, wk7RunningActual]).total.sessions = 3 := by
  have hf : [wk7CyclingActual, wk7CyclingPlanned, wk7RunningActual].filter (fun s => inWeek s.date)
      = [wk7CyclingActual, wk7CyclingPlanned, wk7RunningActual] := by
    simp [List.filter_cons, wk7CyclingActual, wk7CyclingPlanned, wk7RunningActual, h1, h2, h3]
  simp only [weeklyStats, hf]
  refine ⟨?_, ?_, ?_, ?_, ?_⟩ <;>
    simp [statsStep, isStrava, wk7CyclingActual, wk7CyclingPlanned, wk7RunningActual] <;>
    norm_num

/-- Witness for C7 with the always-true week membership predicate. -/
theorem weekly_aggregation_scenario_witness :
    ((fun _ : String => true) "2025-03-10" = true) ∧
    ((weeklyStats (fun _ => true) [wk7CyclingActual, wk7CyclingPlanned, wk7RunningActual]).cycling.accomplished = 2 ∧
      (weeklyStats (fun _ => true) [wk7CyclingActual, wk7CyclingPlanned, wk7RunningActual]).cycling.planned = 1 ∧
      (weeklyStats (fun _ => true) [wk7CyclingActual, wk7CyclingPlanned, wk7RunningActual]).running.accomplished = 1 ∧
      (weeklyStats (fun _ => true) [wk7CyclingActual, wk7CyclingPlanned, wk7RunningActual]).total.hours = 4 ∧
      (weeklyStats (fun _ => true) [wk7CyclingActual, wk7CyclingPlanned, wk7RunningActual]).total.sessions = 3) :=
  ⟨rfl, weekly_aggregation_scenario (fun _ => true) rfl rfl rfl⟩

/-- C5 (amended): `getValidToken` hands out the stored access token without any
refresh exactly when the stored expiry is at least 60 seconds away
(`now + 60 <= expires_at`); when the expiry is nearer it performs exactly one
refresh-token exchange, returning the refreshed token on success and, on
failure, clearing the stored tokens and returning none; with no stored token
triple it returns none without any exchange. -/
theorem getValidToken_refresh_policy (st : TokenState) (now : ℤ) (resp : Option StravaTokens) :
    (st.tokens = none → getValidToken st now resp = (st, none, 0)) ∧
    (∀ t, st.tokens = some t → now + 60 ≤ t.expires_at →
        getValidToken st now resp = (st, some t.access_token, 0)) ∧
    (∀ t nt, st.tokens = some t → t.expires_at < now + 60 → resp = some nt →
        getValidToken st now resp = ({ tokens := some nt }, some nt.access_token, 1)) ∧
    (∀ t, st.tokens = some t → t.expires_at < now + 60 → resp = none →
        getValidToken st now resp = ({ tokens := none }, none, 1)) := by
  refine ⟨fun h => by simp [getValidToken, h], fun t ht hle => ?_,
    fun t nt ht hlt hresp => ?_, fun t ht hlt hresp => ?_⟩
  · have hnot : ¬ (t.expires_at < now + 60) := by omega
    simp [getValidToken, ht, hnot]
  · simp [getValidToken, refreshAccessToken, ht, hlt, hresp]
  · simp [getValidToken, refreshAccessToken, ht, hlt, hresp]

/-- Stored token triple expiring at epoch second 60. -/
def bndTokens : StravaTokens :=
  { access_token := "tok", refresh_token := "ref", expires_at := 60 }

/-- The fresh triple a successful refresh exchange would return. -/
def bndFreshTokens : StravaTokens :=
  { access_token := "tok2", refresh_token := "ref2", expires_at := 4000 }

/-- C5 counterexample: at `now = 0` the stored token expires in exactly 60
seconds — not "more than 60 seconds away" — yet the code performs zero
refresh-token exchanges and returns the stored (not a refreshed) token, even
though the exchange would have succeeded; the claim's otherwise-branch
prescribes exactly one refresh here. -/
theorem getValidToken_boundary_counterexample :
    ¬ (bndTokens.expires_at - 0 > 60) ∧
    getValidToken { tokens := some bndTokens } 0 (some bndFreshTokens)
      = ({ tokens := some bndTokens }, some "tok", 0) := by
  constructor
  · decide
  · rfl

/-- Witness for C5 (amended) on the refresh-success branch. -/
theorem getValidToken_refresh_policy_witness :
    ({ tokens := some bndTokens } : TokenState).tokens = some bndTokens ∧
    bndTokens.expires_at < 100 + 60 ∧
    getValidToken { tokens := some bndTokens } 100 (some bndFreshTokens)
      = ({ tokens := some bndFreshTokens }, some "tok2", 1) := by
  refine ⟨rfl, by decide, ?_⟩
  exact (getValidToken_refresh_policy { tokens := some bndTokens } 100
    (some bndFreshTokens)).2.2.1 bndTokens bndFreshTokens rfl (by decide) rfl

@[simp] lemma activityTemplate_sport (a : StravaDetailedActivity) (sp : Sport) :
    (activityTemplate a sp).sport = sp := rfl

@[simp] lemma activityTemplate_title (a : StravaDetailedActivity) (sp : Sport) :
    (activityTemplate a sp).title = a.name := rfl

@[simp] lemma activityTemplate_type (a : StravaDetailedActivity) (sp : Sport) :
    (activityTemplate a sp).type = "strava" := rfl

@[simp] lemma scheduleTemplate_id (t : SessionTemplate) (i : ℕ) (d : String) :
    (scheduleTemplate t i d).id = i := rfl

@[simp] lemma scheduleTemplate_date (t : SessionTemplate) (i : ℕ) (d : String) :
    (scheduleTemplate t i d).date = d := rfl

lemma filterKey_append (k : String) (l1 l2 : List ScheduledSession) :
    filterKey k (l1 ++ l2) = filterKey k l1 ++ filterKey k l2 := by
  simp [filterKey]

lemma filterKey_singleton_of_ne (k : String) (s : ScheduledSession) (h : keyOf s ≠ k) :
    filterKey k [s] = [] := by
  simp [filterKey, List.filter_cons, beq_eq_false_iff_ne.mpr h]

lemma filter_removeFirstById_singleton (pr : ScheduledSession → Bool)
    (ss : List ScheduledSession) (a : ScheduledSession)
    (hf : ss.filter pr = [a]) (hinj : ∀ s ∈ ss, s.id = a.id → s = a) :
    (removeFirstById ss a.id).filter pr = [] := by
  induction ss with
  | nil => simp at hf
  | cons x rest ih =>
      rw [removeFirstById]
      by_cases hx : (x.id == a.id) = true
      · rw [if_pos hx]
        have hxa : x = a := hinj x (List.mem_cons_self _ _) (beq_iff_eq.mp hx)
        have hpa : pr a = true := (mem_of_filter_singleton pr (x :: rest) a hf).2
        rw [List.filter_cons_of_pos (by rw [hxa]; exact hpa)] at hf
        exact (List.cons_eq_cons.mp hf).2
      · rw [if_neg hx]
        by_cases hpx : pr x = true
        · rw [List.filter_cons_of_pos hpx] at hf
          have hxa : x = a := (List.cons_eq_cons.mp hf).1
          rw [hxa] at hx
          exact absurd (beq_self_eq_true a.id) hx
        · rw [List.filter_cons_of_neg (by simpa using hpx)] at hf
          rw [List.filter_cons_of_neg (by simpa using hpx)]
          exact ih hf (fun s hs he => hinj s (List.mem_cons_of_mem _ hs) he)

lemma filterNewActivities_singleton_pass (ss : List ScheduledSession)
    (a : StravaDetailedActivity)
    (h : (stravaKeys ss).contains (activityKey a.toStravaActivity) = false) :
    filterNewActivities ss [a] = [a] := by
  have hnm : activityKey a.toStravaActivity ∉ stravaKeys ss := by simpa using h
  simp [filterNewActivities, List.filter_cons, hnm]

lemma convertToSessions_singleton (a : StravaDetailedActivity) (sp : Sport)
    (h : mapStravaToSport a.toStravaActivity = some sp) :
    convertToSessions [a] = [(activityTemplate a sp, activityDate a.toStravaActivity)] := by
  simp [convertToSessions, h]

/-- C2: a planned session being the unique session on the incoming activity's
day and sport, reconciliation leaves exactly one session on that (day, sport) —
the imported actual one, carrying the displaced planned session's title and
description in its replaced-planned snapshot fields — and the planned
session's identifier is gone from the store. -/
theorem planned_displacement (st : Store) (a : StravaDetailedActivity)
    (p : ScheduledSession) (S : Sport)
    (hwf : StoreWF st)
    (hsp : mapStravaToSport a.toStravaActivity = some S)
    (hp : st.sessions.filter
        (fun s => s.date == activityDate a.toStravaActivity && s.sport == S) = [p])
    (hplanned : isStrava p = false)
    (hnew : (stravaKeys st.sessions).contains (activityKey a.toStravaActivity) = false) :
    ∃ n : ScheduledSession,
      (syncStrava st [a]).sessions.filter
          (fun s => s.date == activityDate a.toStravaActivity && s.sport == S) = [n] ∧
      isStrava n = true ∧
      n.planned_title = some p.title ∧
      n.planned_description = some p.description ∧
      ∀ s ∈ (syncStrava st [a]).sessions, s.id ≠ p.id := by
  have hpmem : p ∈ st.sessions := (mem_of_filter_singleton _ _ _ hp).1
  have hppred := (mem_of_filter_singleton _ _ _ hp).2
  rw [syncStrava, filterNewActivities_singleton_pass st.sessions a hnew,
    convertToSessions_singleton a S hsp, List.foldl_cons, List.foldl_nil]
  simp only [syncStravaStep, activityTemplate_sport]
  have hfind : st.sessions.find?
      (fun s => s.date == activityDate a.toStravaActivity && s.sport == S && !isStrava s)
      = some p := by
    apply find?_of_filter_singleton
        (fun s => s.date == activityDate a.toStravaActivity && s.sport == S) _ _ _ hp
    · intro s hq
      simp only [Bool.and_eq_true] at hq ⊢
      exact hq.1
    · simp only [Bool.and_eq_true] at hppred ⊢
      exact ⟨hppred, by simp [hplanned]⟩
  rw [hfind]
  simp only [Store.addSession, Store.removeSession]
  refine ⟨scheduleTemplate (displacedTemplate (activityTemplate a S) p) st.nextId
      (activityDate a.toStravaActivity), ?_, rfl, rfl, rfl, ?_⟩
  · rw [List.filter_append]
    have hinj : ∀ s ∈ st.sessions, s.id = p.id → s = p :=
      fun s hs he => List.inj_on_of_nodup_map hwf.1 hs hpmem he
    rw [filter_removeFirstById_singleton _ _ _ hp hinj]
    simp [scheduleTemplate, displacedTemplate]
  · intro s hs
    rcases List.mem_append.mp hs with hrem | hone
    · exact ids_ne_of_removeFirstById st.sessions p hwf.1 hpmem s hrem
    · have : s.id = st.nextId := by
        rcases List.mem_singleton.mp hone with rfl
        rfl
      have hlt : p.id < st.nextId := hwf.2 p.id (List.mem_map_of_mem _ hpmem)
      omega

/-- C3 (amended): in the detail-fetching sync path — the reconciliation
described by the spec — importing a cycling activity never touches a planned
strength session: reconciliation only displaces planned sessions that share
the imported activity's own sport category. -/
theorem syncStrava_cross_sport_frame (st : Store) (a : StravaDetailedActivity)
    (p : ScheduledSession) (hwf : StoreWF st) (hp : p ∈ st.sessions)
    (hsport : p.sport = Sport.strength)
    (ha : mapStravaToSport a.toStravaActivity = some Sport.cycling) :
    p ∈ (syncStrava st [a]).sessions := by
  rw [syncStrava]
  by_cases hc : (stravaKeys st.sessions).contains (activityKey a.toStravaActivity) = false
  · rw [filterNewActivities_singleton_pass st.sessions a hc,
      convertToSessions_singleton a Sport.cycling ha, List.foldl_cons, List.foldl_nil]
    simp only [syncStravaStep, activityTemplate_sport]
    cases hfind : st.sessions.find?
        (fun s => s.date == activityDate a.toStravaActivity &&
          s.sport == Sport.cycling && !isStrava s) with
    | none =>
        simp only [Store.addSession]
        exact List.mem_append_left _ hp
    | some q =>
        simp only [displacedTemplate, Store.addSession, Store.removeSession]
        apply List.mem_append_left
        apply mem_removeFirstById _ _ _ hp
        have hq := List.find?_some hfind
        simp only [Bool.and_eq_true, beq_iff_eq] at hq
        have hqmem := List.mem_of_find?_eq_some hfind
        intro he
        have hpq : p = q := List.inj_on_of_nodup_map hwf.1 hp hqmem he
        rw [hpq, hq.1.2] at hsport
        exact Sport.noConfusion hsport
  · have hc2 : (stravaKeys st.sessions).contains (activityKey a.toStravaActivity) = true := by
      revert hc
      cases (stravaKeys st.sessions).contains (activityKey a.toStravaActivity) <;> simp
    have hmem : activityKey a.toStravaActivity ∈ stravaKeys st.sessions := by
      simpa using hc2
    have : filterNewActivities st.sessions [a] = [] := by
      simp [filterNewActivities, List.filter_cons, hmem]
    rw [this]
    simpa [convertToSessions] using hp

/-- A planned strength session on 2025-03-10. -/
@[reducible] def frameP : ScheduledSession :=
  mkPlanned 1 Sport.strength "renfo" "Renfo haut du corps" "desc" "2025-03-10" 45

/-- A store holding only the planned strength session. -/
@[reducible] def frameStore : Store := { sessions := [frameP], nextId := 10 }

/-- A cycling activity dated 2025-03-10 with a fresh dedup key. -/
@[reducible] def frameActivity : StravaDetailedActivity :=
  { id := 42, name := "Ride matin", type := "Ride", sport_type := "Ride",
    start_date_local := "2025-03-10T08:00:00Z", moving_time := 3600,
    distance := 30000, total_elevation_gain := 200 }

/-- C3 counterexample: in the legacy `App.vue` sync path, importing a new-key
cycling activity on 2025-03-10 deletes the planned strength session of that
day — after the sync the store holds only the imported ride, the strength
session (title "Renfo haut du corps") is gone. -/
theorem appVue_cross_sport_counterexample :
    frameP.sport = Sport.strength ∧
    isStrava frameP = false ∧
    mapStravaToSport frameActivity.toStravaActivity = some Sport.cycling ∧
    activityDate frameActivity.toStravaActivity = frameP.date ∧
    (appVueSyncStrava frameStore [frameActivity]).sessions.map (fun s => s.title)
      = ["Ride matin"] ∧
    frameP.title = "Renfo haut du corps" := by
  refine ⟨rfl, rfl, by decide, by decide, ?_, rfl⟩
  rfl

/-- Witness for C3 (amended) on the concrete strength-vs-cycling store. -/
theorem syncStrava_cross_sport_frame_witness :
    StoreWF frameStore ∧ frameP ∈ frameStore.sessions ∧
    frameP.sport = Sport.strength ∧
    mapStravaToSport frameActivity.toStravaActivity = some Sport.cycling ∧
    frameP ∈ (syncStrava frameStore [frameActivity]).sessions := by
  have hwf : StoreWF frameStore := ⟨by decide, by decide⟩
  have hp : frameP ∈ frameStore.sessions := by decide
  exact ⟨hwf, hp, rfl, by decide,
    syncStrava_cross_sport_frame frameStore frameActivity frameP hwf hp rfl (by decide)⟩

/-- The planned cycling session displaced in the C2 witness. -/
@[reducible] def dispPlanned : ScheduledSession :=
  mkPlanned 1 Sport.cycling "endurance" "Sortie tempo" "plan 2h" "2025-03-10" 120

/-- A store holding only the planned cycling session. -/
@[reducible] def dispStore : Store := { sessions := [dispPlanned], nextId := 2 }

/-- The imported cycling activity of the C2 witness. -/
@[reducible] def dispActivity : StravaDetailedActivity :=
  { id := 77, name := "Morning Ride", type := "Ride", sport_type := "Ride",
    start_date_local := "2025-03-10T09:00:00Z", moving_time := 7200,
    distance := 56400, total_elevation_gain := 500 }

/-- Witness for C2 on a concrete one-planned-session store. -/
theorem planned_displacement_witness :
    StoreWF dispStore ∧
    ∃ n : ScheduledSession,
      (syncStrava dispStore [dispActivity]).sessions.filter
          (fun s => s.date == activityDate dispActivity.toStravaActivity &&
            s.sport == Sport.cycling) = [n] ∧
      isStrava n = true ∧
      n.planned_title = some dispPlanned.title ∧
      n.planned_description = some dispPlanned.description ∧
      ∀ s ∈ (syncStrava dispStore [dispActivity]).sessions, s.id ≠ dispPlanned.id := by
  have hwf : StoreWF dispStore := ⟨by decide, by decide⟩
  exact ⟨hwf, planned_displacement dispStore dispActivity dispPlanned Sport.cycling hwf
    (by decide) (by decide) (by decide) (by decide)⟩

lemma mem_bulkUpsert_strava (n s : ScheduledSession) :
    ∀ (ss r : List ScheduledSession),
      bulkUpsert n ss = some r → s ∈ ss → isStrava s = true → s ∈ r := by
  intro ss
  induction ss with
  | nil => intro r h; simp [bulkUpsert] at h
  | cons x rest ih =>
      intro r h hmem hstr
      rw [bulkUpsert] at h
      by_cases hk : (keyOf x == keyOf n) = true
      · rw [if_pos hk] at h
        by_cases hx : isStrava x = true
        · rw [if_pos hx] at h
          cases h
          exact hmem
        · rw [if_neg hx] at h
          cases h
          rcases List.mem_cons.mp hmem with rfl | hmem2
          · exact absurd hstr hx
          · exact List.mem_cons_of_mem _ hmem2
      · rw [if_neg hk] at h
        rcases Option.map_eq_some'.mp h with ⟨r0, hr0, rfl⟩
        rcases List.mem_cons.mp hmem with rfl | hmem2
        · exact List.mem_cons_self _ _
        · exact List.mem_cons_of_mem _ (ih r0 hr0 hmem2 hstr)

lemma mem_bulkInsertStep_strava (n s : ScheduledSession) (ss : List ScheduledSession)
    (hmem : s ∈ ss) (hstr : isStrava s = true) : s ∈ bulkInsertStep ss n := by
  cases h : bulkUpsert n ss with
  | some r =>
      simp only [bulkInsertStep, h]
      exact mem_bulkUpsert_strava n s ss r h hmem hstr
  | none =>
      simp only [bulkInsertStep, h]
      exact List.mem_append_left _ hmem

lemma mem_foldl_bulkInsert_strava (s : ScheduledSession) :
    ∀ (batch ss : List ScheduledSession), s ∈ ss → isStrava s = true →
      s ∈ batch.foldl bulkInsertStep ss := by
  intro batch
  induction batch with
  | nil => intro ss h _; simpa using h
  | cons n rest ih =>
      intro ss h hstr
      rw [List.foldl_cons]
      exact ih _ (mem_bulkInsertStep_strava n s ss h hstr) hstr

/-- C4: a `replaceExisting = true` bulk import first removes exactly the
non-"strava" sessions dated like some incoming item (the cleaning phase keeps a
session iff it is off the incoming dates or is an actual one), and every
"actual" (strava) session of the store survives the whole import unchanged —
bulk import never overwrites an actual session, even on a (title, date) key
match. -/
theorem bulk_replace_semantics (st : Store) (items : List ImportItem) (today : String) :
    (∀ s : ScheduledSession,
        s ∈ replaceExistingClean
            ((materializeItems today st.nextId items).1.map (fun n => n.date)) st.sessions
          ↔ s ∈ st.sessions ∧
            (((materializeItems today st.nextId items).1.map (fun n => n.date)).contains s.date = true →
              isStrava s = true)) ∧
    (∀ s ∈ st.sessions, isStrava s = true →
        s ∈ (loadFromJson st items true today).sessions) := by
  constructor
  · intro s
    rw [replaceExistingClean, List.mem_filter]
    cases hc : ((materializeItems today st.nextId items).1.map (fun n => n.date)).contains s.date <;>
      cases hi : isStrava s <;> simp [hc, hi]
  · intro s hmem hstr
    simp only [loadFromJson]
    apply mem_foldl_bulkInsert_strava
    · simp only [if_pos]
      rw [replaceExistingClean, List.mem_filter]
      exact ⟨hmem, by simp [hstr]⟩
    · exact hstr

/-- The "actual" cycling session of the C4 witness store. -/
@[reducible] def bulkActual : ScheduledSession :=
  { sport := Sport.cycling, type := "strava", title := "Ride A", duration_min := 60,
    description := "30 km", actual_km := some 30, id := 2, date := "2025-03-10" }

/-- The planned session sharing the incoming date in the C4 witness store. -/
@[reducible] def bulkPlanned : ScheduledSession :=
  mkPlanned 1 Sport.cycling "endurance" "Plan A" "p" "2025-03-10" 60

/-- The C4 witness store. -/
@[reducible] def bulkStore : Store := { sessions := [bulkPlanned, bulkActual], nextId := 3 }

/-- The incoming template of the C4 witness batch. -/
@[reducible] def bulkTemplate : SessionTemplate :=
  { sport := Sport.cycling, type := "endurance", title := "New plan",
    duration_min := 90, description := "n", structurePhases := [] }

/-- The C4 witness batch: one template dated 2025-03-10. -/
@[reducible] def bulkItems : List ImportItem :=
  [ImportItem.tmpl bulkTemplate (some "2025-03-10")]

/-- Witness for C4: the actual session on the imported date survives a
replace-mode bulk import. -/
theorem bulk_replace_semantics_witness :
    (bulkActual ∈ bulkStore.sessions ∧ isStrava bulkActual = true) ∧
    bulkActual ∈ (loadFromJson bulkStore bulkItems true "2025-03-12").sessions := by
  have h1 : bulkActual ∈ bulkStore.sessions := by decide
  have h2 : isStrava bulkActual = true := by decide
  exact ⟨⟨h1, h2⟩, (bulk_replace_semantics bulkStore bulkItems "2025-03-12").2 bulkActual h1 h2⟩

lemma materializeItems_full (today : String) :
    ∀ (l : List ScheduledSession) (n : ℕ),
      materializeItems today n (l.map ImportItem.full) = (l, n) := by
  intro l
  induction l with
  | nil => intro n; rfl
  | cons s rest ih =>
      intro n
      rw [List.map_cons, materializeItems, ih n]

lemma bulkUpsert_self (p : ScheduledSession) :
    ∀ (ss : List ScheduledSession), p ∈ ss → isStrava p = false →
      ((ss.filter (fun s => !isStrava s)).map keyOf).Nodup →
      bulkUpsert p ss = some ss := by
  intro ss
  induction ss with
  | nil => intro h; simp at h
  | cons x rest ih =>
      intro hmem hplanned hnodup
      rw [bulkUpsert]
      by_cases hk : (keyOf x == keyOf p) = true
      · rw [if_pos hk]
        by_cases hx : isStrava x = true
        · rw [if_pos hx]
        · rw [if_neg hx]
          have hpx : p = x := by
            by_contra hne
            have hprest : p ∈ rest := by
              rcases List.mem_cons.mp hmem with h1 | h2
              · exact absurd h1 hne
              · exact h2
            have hxf : List.filter (fun s => !isStrava s) (x :: rest)
                = x :: List.filter (fun s => !isStrava s) rest := by
              simp [List.filter_cons, hx]
            rw [hxf, List.map_cons, List.nodup_cons] at hnodup
            apply hnodup.1
            have hpf : p ∈ List.filter (fun s => !isStrava s) rest :=
              List.mem_filter.mpr ⟨hprest, by simp [hplanned]⟩
            have hkk : keyOf p = keyOf x := (beq_iff_eq.mp hk).symm
            rw [← hkk]
            exact List.mem_map_of_mem _ hpf
          rw [hpx]
      · rw [if_neg hk]
        have hne : p ≠ x := fun he => hk (by rw [he]; exact beq_self_eq_true _)
        have hprest : p ∈ rest := by
          rcases List.mem_cons.mp hmem with h1 | h2
          · exact absurd h1 hne
          · exact h2
        have hnodup2 : ((rest.filter (fun s => !isStrava s)).map keyOf).Nodup := by
          by_cases hx : isStrava x = true
          · have hxf : List.filter (fun s => !isStrava s) (x :: rest)
                = List.filter (fun s => !isStrava s) rest := by
              simp [List.filter_cons, hx]
            rwa [hxf] at hnodup
          · have hxf : List.filter (fun s => !isStrava s) (x :: rest)
                = x :: List.filter (fun s => !isStrava s) rest := by
              simp [List.filter_cons, hx]
            rw [hxf, List.map_cons, List.nodup_cons] at hnodup
            exact hnodup.2
        rw [ih hprest hplanned hnodup2]
        rfl

lemma foldl_bulkInsert_self :
    ∀ (batch ss : List ScheduledSession),
      (∀ p ∈ batch, isStrava p = false ∧ p ∈ ss) →
      ((ss.filter (fun s => !isStrava s)).map keyOf).Nodup →
      batch.foldl bulkInsertStep ss = ss := by
  intro batch
  induction batch with
  | nil => intro ss _ _; rfl
  | cons p rest ih =>
      intro ss h hnodup
      have hp := h p (List.mem_cons_self _ _)
      have hstep : bulkInsertStep ss p = ss := by
        rw [bulkInsertStep, bulkUpsert_self p ss hp.2 hp.1 hnodup]
      rw [List.foldl_cons, hstep]
      exact ih ss (fun q hq => h q (List.mem_cons_of_mem _ hq)) hnodup

/-- C6 (amended): for a store whose planned (non-"strava") sessions carry
pairwise-distinct `${title}-${date}` dedup keys, exporting the planned
sessions and re-importing the document with `replaceExisting = false` leaves
the session list exactly unchanged — in particular the planned-session set
(by any comparison) is reproduced with none duplicated. -/
theorem export_import_roundtrip (st : Store) (today : String)
    (hnodup : ((exportToJson st.sessions).map keyOf).Nodup) :
    (loadFromJson st ((exportToJson st.sessions).map ImportItem.full) false today).sessions
      = st.sessions := by
  simp only [loadFromJson, materializeItems_full, if_neg Bool.false_ne_true]
  apply foldl_bulkInsert_self
  · intro p hp
    rw [exportToJson, List.mem_filter] at hp
    exact ⟨by simpa using hp.2, hp.1⟩
  · rw [exportToJson] at hnodup
    exact hnodup

/-- First planned session of the C6 counterexample: key "Sortie"/"2025-03-10",
duration 60. -/
@[reducible] def rtP1 : ScheduledSession :=
  mkPlanned 1 Sport.cycling "endurance" "Sortie" "d1" "2025-03-10" 60

/-- Second planned session with the same dedup key but duration 90. -/
@[reducible] def rtP2 : ScheduledSession :=
  mkPlanned 2 Sport.cycling "endurance" "Sortie" "d2" "2025-03-10" 90

/-- The C6 counterexample store. -/
@[reducible] def rtStore : Store := { sessions := [rtP1, rtP2], nextId := 3 }

/-- C6 counterexample: with two planned sessions sharing the "Sortie" /
"2025-03-10" dedup key but different durations, the export / re-import round
trip (replaceExisting = false) overwrites the first key match twice: the
60-minute session disappears and the 90-minute one is duplicated, so the
planned-session set compared by title+date+duration is not reproduced. -/
theorem export_import_roundtrip_counterexample :
    ((loadFromJson rtStore ((exportToJson rtStore.sessions).map ImportItem.full)
        false "2025-03-12").sessions.filter (fun s => s.duration_min == 60)).length = 0 ∧
    (rtStore.sessions.filter (fun s => s.duration_min == 60)).length = 1 ∧
    ((loadFromJson rtStore ((exportToJson rtStore.sessions).map ImportItem.full)
        false "2025-03-12").sessions.filter (fun s => s.duration_min == 90)).length = 2 ∧
    (rtStore.sessions.filter (fun s => s.duration_min == 90)).length = 1 := by
  refine ⟨?_, ?_, ?_, ?_⟩ <;> rfl

/-- Planned session with a unique key for the C6 witness. -/
@[reducible] def rtQ1 : ScheduledSession :=
  mkPlanned 1 Sport.cycling "endurance" "Sortie" "d1" "2025-03-10" 60

/-- Second planned session, distinct key, for the C6 witness. -/
@[reducible] def rtQ2 : ScheduledSession :=
  mkPlanned 2 Sport.running "footing" "Footing" "d2" "2025-03-11" 45

/-- The C6 witness store (distinct planned keys). -/
@[reducible] def rtWStore : Store := { sessions := [rtQ1, rtQ2], nextId := 3 }

/-- Witness for C6 (amended) on a store with distinct planned dedup keys. -/
theorem export_import_roundtrip_witness :
    ((exportToJson rtWStore.sessions).map keyOf).Nodup ∧
    (loadFromJson rtWStore ((exportToJson rtWStore.sessions).map ImportItem.full)
        false "2025-03-12").sessions = rtWStore.sessions := by
  have h : ((exportToJson rtWStore.sessions).map keyOf).Nodup := by decide
  exact ⟨h, export_import_roundtrip rtWStore "2025-03-12" h⟩

@[simp] lemma displacedTemplate_title (t : SessionTemplate) (p : ScheduledSession) :
    (displacedTemplate t p).title = t.title := rfl

lemma filterKey_cons_of_ne (k : String) (s : ScheduledSession) (rest : List ScheduledSession)
    (h : keyOf s ≠ k) : filterKey k (s :: rest) = filterKey k rest := by
  simp [filterKey, List.filter_cons, beq_eq_false_iff_ne.mpr h]

lemma filterKey_cons_of_eq (k : String) (s : ScheduledSession) (rest : List ScheduledSession)
    (h : keyOf s = k) : filterKey k (s :: rest) = s :: filterKey k rest := by
  simp [filterKey, List.filter_cons, h]

lemma mem_convertToSessions (acts : List StravaDetailedActivity)
    (it : SessionTemplate × String) (h : it ∈ convertToSessions acts) :
    ∃ a, a ∈ acts ∧ ∃ sp, mapStravaToSport a.toStravaActivity = some sp ∧
      it = (activityTemplate a sp, activityDate a.toStravaActivity) := by
  rw [convertToSessions, List.mem_filterMap] at h
  rcases h with ⟨a, ha, hmap⟩
  rcases Option.map_eq_some'.mp hmap with ⟨sp, hsp, heq⟩
  exact ⟨a, ha, sp, hsp, heq.symm⟩

lemma convert_items_type (acts : List StravaDetailedActivity) :
    ∀ it ∈ convertToSessions acts, it.1.type = "strava" := by
  intro it hit
  rcases mem_convertToSessions _ _ hit with ⟨a, _, sp, _, rfl⟩
  rfl

lemma syncStravaStep_preserves (k : String) (s0 : ScheduledSession) (st : Store)
    (it : SessionTemplate × String)
    (hwf : StoreWF st)
    (hkey : filterKey k st.sessions = [s0])
    (hstr : isStrava s0 = true)
    (hit : it.1.title ++ "-" ++ it.2 ≠ k) :
    StoreWF (syncStravaStep st it) ∧ filterKey k (syncStravaStep st it).sessions = [s0] := by
  cases hfind : st.sessions.find? (fun s => s.date == it.2 && s.sport == it.1.sport && !isStrava s) with
  | none =>
      simp only [syncStravaStep, hfind]
      refine ⟨hwf.addSession _ _, ?_⟩
      simp only [Store.addSession]
      rw [filterKey_append, hkey,
        filterKey_singleton_of_ne k (scheduleTemplate it.1 st.nextId it.2) hit]
      simp
  | some planned =>
      simp only [syncStravaStep, hfind]
      have hpred := List.find?_some hfind
      have hpm := List.mem_of_find?_eq_some hfind
      have hps : isStrava planned = false := by
        simp only [Bool.and_eq_true] at hpred
        simpa using hpred.2
      have hpk : keyOf planned ≠ k := by
        intro he
        have hmem : planned ∈ filterKey k st.sessions :=
          List.mem_filter.mpr ⟨hpm, beq_iff_eq.mpr he⟩
        rw [hkey, List.mem_singleton] at hmem
        simp [hmem, hstr] at hps
      refine ⟨(hwf.removeSession planned.id).addSession _ _, ?_⟩
      simp only [Store.addSession, Store.removeSession]
      rw [filterKey_append]
      have hcond : ∀ s ∈ st.sessions, s.id = planned.id → (keyOf s == k) = false := by
        intro s hs he
        have hsp2 : s = planned := List.inj_on_of_nodup_map hwf.1 hs hpm he
        rw [hsp2]
        exact beq_eq_false_iff_ne.mpr hpk
      have hrm : filterKey k (removeFirstById st.sessions planned.id) = [s0] := by
        show (removeFirstById st.sessions planned.id).filter (fun s => keyOf s == k) = [s0]
        rw [filter_removeFirstById _ _ _ hcond]
        exact hkey
      rw [hrm, filterKey_singleton_of_ne k
        (scheduleTemplate (displacedTemplate it.1 planned) st.nextId it.2) hit]
      simp

lemma syncLoop_preserves (k : String) (s0 : ScheduledSession) (hstr : isStrava s0 = true) :
    ∀ (items : List (SessionTemplate × String)) (st : Store),
      StoreWF st → filterKey k st.sessions = [s0] →
      (∀ it ∈ items, it.1.title ++ "-" ++ it.2 ≠ k) →
      StoreWF (items.foldl syncStravaStep st) ∧
        filterKey k (items.foldl syncStravaStep st).sessions = [s0] := by
  intro items
  induction items with
  | nil => intro st hwf hkey _; exact ⟨hwf, hkey⟩
  | cons it rest ih =>
      intro st hwf hkey hall
      rw [List.foldl_cons]
      have hstep := syncStravaStep_preserves k s0 st it hwf hkey hstr
        (hall it (List.mem_cons_self _ _))
      exact ih _ hstep.1 hstep.2 (fun j hj => hall j (List.mem_cons_of_mem _ hj))

lemma skip_items_key_ne (st : Store) (acts : List StravaDetailedActivity)
    (s0 : ScheduledSession) (hs0 : s0 ∈ st.sessions) (hstr : isStrava s0 = true) :
    ∀ it ∈ convertToSessions (filterNewActivities st.sessions acts),
      it.1.title ++ "-" ++ it.2 ≠ keyOf s0 := by
  intro it hit
  rcases mem_convertToSessions _ _ hit with ⟨a, ha, sp, hsp, rfl⟩
  rw [filterNewActivities, List.mem_filter] at ha
  intro he
  have hkeymem : keyOf s0 ∈ stravaKeys st.sessions := by
    rw [stravaKeys]
    exact List.mem_map_of_mem _ (List.mem_filter.mpr ⟨hs0, hstr⟩)
  have hmem : activityKey a.toStravaActivity ∈ stravaKeys st.sessions := by
    rw [show activityKey a.toStravaActivity = keyOf s0 from he]
    exact hkeymem
  have hc := ha.2
  simp at hc
  exact hc hmem

lemma appVueUpdate_none_vals (session : SessionTemplate) (date : String) :
    ∀ ss, appVueUpdate session date ss = none →
      ∀ x ∈ ss, keyOf x ≠ session.title ++ "-" ++ date := by
  intro ss
  induction ss with
  | nil => intro _ x hx; simp at hx
  | cons y rest ih =>
      intro h x hx
      rw [appVueUpdate] at h
      by_cases hk : (keyOf y == session.title ++ "-" ++ date) = true
      · rw [if_pos hk] at h
        simp at h
      · rw [if_neg hk] at h
        have h2 := Option.map_eq_none'.mp h
        rcases List.mem_cons.mp hx with rfl | hx2
        · exact fun he => hk (beq_iff_eq.mpr he)
        · exact ih h2 x hx2

lemma appVueUpdate_some_map_id (session : SessionTemplate) (date : String) :
    ∀ ss ss', appVueUpdate session date ss = some ss' →
      ss'.map (fun s => s.id) = ss.map (fun s => s.id) := by
  intro ss
  induction ss with
  | nil => intro ss' h; simp [appVueUpdate] at h
  | cons y rest ih =>
      intro ss' h
      rw [appVueUpdate] at h
      by_cases hk : (keyOf y == session.title ++ "-" ++ date) = true
      · rw [if_pos hk] at h
        cases h
        simp
      · rw [if_neg hk] at h
        rcases Option.map_eq_some'.mp h with ⟨r, hr, rfl⟩
        simp [ih r hr]

lemma appVueUpdate_some_filterKey_ne (k : String) (session : SessionTemplate) (date : String)
    (hne : session.title ++ "-" ++ date ≠ k) :
    ∀ ss ss', appVueUpdate session date ss = some ss' →
      filterKey k ss' = filterKey k ss := by
  intro ss
  induction ss with
  | nil => intro ss' h; simp [appVueUpdate] at h
  | cons y rest ih =>
      intro ss' h
      rw [appVueUpdate] at h
      by_cases hk : (keyOf y == session.title ++ "-" ++ date) = true
      · rw [if_pos hk] at h
        cases h
        have hyk : keyOf y ≠ k := by
          rw [beq_iff_eq.mp hk]
          exact hne
        rw [filterKey_cons_of_ne k (scheduleTemplate session y.id date) rest hne,
          filterKey_cons_of_ne k y rest hyk]
      · rw [if_neg hk] at h
        rcases Option.map_eq_some'.mp h with ⟨r, hr, rfl⟩
        by_cases hyk : keyOf y = k
        · rw [filterKey_cons_of_eq _ _ _ hyk, filterKey_cons_of_eq _ _ _ hyk, ih r hr]
        · rw [filterKey_cons_of_ne _ _ _ hyk, filterKey_cons_of_ne _ _ _ hyk, ih r hr]

lemma appVueUpdate_some_filterKey_eq (k : String) (session : SessionTemplate) (date : String)
    (heq : session.title ++ "-" ++ date = k) :
    ∀ ss (s : ScheduledSession), filterKey k ss = [s] →
      ∃ ss', appVueUpdate session date ss = some ss' ∧
        filterKey k ss' = [scheduleTemplate session s.id date] := by
  intro ss
  induction ss with
  | nil => intro s h; simp [filterKey] at h
  | cons y rest ih =>
      intro s h
      by_cases hyk : keyOf y = k
      · rw [filterKey_cons_of_eq _ _ _ hyk] at h
        have hy : y = s := (List.cons_eq_cons.mp h).1
        have hrest : filterKey k rest = [] := (List.cons_eq_cons.mp h).2
        refine ⟨scheduleTemplate session y.id date :: rest, ?_, ?_⟩
        · rw [appVueUpdate, if_pos (beq_iff_eq.mpr (hyk.trans heq.symm))]
        · rw [filterKey_cons_of_eq k (scheduleTemplate session y.id date) rest heq, hrest, hy]
      · rw [filterKey_cons_of_ne _ _ _ hyk] at h
        rcases ih s h with ⟨r, hr, hfk⟩
        have hb : (keyOf y == session.title ++ "-" ++ date) = false :=
          beq_eq_false_iff_ne.mpr (fun hh => hyk (hh.trans heq))
        refine ⟨y :: r, ?_, ?_⟩
        · rw [appVueUpdate, if_neg (by simp [hb]), hr]
          rfl
        · rw [filterKey_cons_of_ne _ _ _ hyk, hfk]

lemma removeAll_preserves (k : String) (s : ScheduledSession) (ss0 : List ScheduledSession)
    (hnodup0 : (ss0.map (fun x => x.id)).Nodup) :
    ∀ (ps : List ScheduledSession) (st : Store),
      (∀ p ∈ ps, isStrava p = false ∧ p ∈ ss0) →
      List.Sublist st.sessions ss0 →
      StoreWF st → filterKey k st.sessions = [s] → isStrava s = true →
      StoreWF (ps.foldl (fun acc p => acc.removeSession p.id) st) ∧
      filterKey k (ps.foldl (fun acc p => acc.removeSession p.id) st).sessions = [s] ∧
      List.Sublist (ps.foldl (fun acc p => acc.removeSession p.id) st).sessions ss0 := by
  intro ps
  induction ps with
  | nil => intro st _ hsub hwf hkey _; exact ⟨hwf, hkey, hsub⟩
  | cons q rest ih =>
      intro st hps hsub hwf hkey hstr
      rw [List.foldl_cons]
      have hq := hps q (List.mem_cons_self _ _)
      have hcond : ∀ x ∈ st.sessions, x.id = q.id → (keyOf x == k) = false := by
        intro x hx he
        have hxq : x = q := List.inj_on_of_nodup_map hnodup0 (hsub.subset hx) hq.2 he
        subst hxq
        apply beq_eq_false_iff_ne.mpr
        intro hkk
        have hmemf : x ∈ filterKey k st.sessions :=
          List.mem_filter.mpr ⟨hx, beq_iff_eq.mpr hkk⟩
        rw [hkey, List.mem_singleton] at hmemf
        have hq1 := hq.1
        simp [hmemf, hstr] at hq1
      have hstep_key : filterKey k (st.removeSession q.id).sessions = [s] := by
        show (removeFirstById st.sessions q.id).filter (fun x => keyOf x == k) = [s]
        rw [filter_removeFirstById _ _ _ hcond]
        exact hkey
      have hstep_sub : List.Sublist (st.removeSession q.id).sessions ss0 :=
        (removeFirstById_sublist _ _).trans hsub
      exact ih _ (fun p hp => hps p (List.mem_cons_of_mem _ hp)) hstep_sub
        (hwf.removeSession q.id) hstep_key hstr

lemma appVueStep_preserves (k : String) (st : Store) (it : SessionTemplate × String)
    (s : ScheduledSession)
    (hwf : StoreWF st) (hkey : filterKey k st.sessions = [s]) (hstr : isStrava s = true)
    (htype : it.1.type = "strava") :
    ∃ s', StoreWF (appVueStep st it) ∧
      filterKey k (appVueStep st it).sessions = [s'] ∧
      s'.id = s.id ∧ isStrava s' = true := by
  cases hup : appVueUpdate it.1 it.2 st.sessions with
  | some ss2 =>
      simp only [appVueStep, hup]
      by_cases hik : it.1.title ++ "-" ++ it.2 = k
      · rcases appVueUpdate_some_filterKey_eq k it.1 it.2 hik st.sessions s hkey
          with ⟨ss3, hss3, hfk⟩
        rw [hss3] at hup
        cases hup
        have hmid := appVueUpdate_some_map_id it.1 it.2 st.sessions ss2 hss3
        refine ⟨scheduleTemplate it.1 s.id it.2, ⟨?_, ?_⟩, hfk, rfl, ?_⟩
        · show (ss2.map (fun x => x.id)).Nodup
          rw [hmid]
          exact hwf.1
        · intro i hi
          have hi2 : i ∈ st.sessions.map (fun x => x.id) := by
            rw [← hmid]
            exact hi
          exact hwf.2 i hi2
        · simp [isStrava, scheduleTemplate, htype]
      · have hfk := appVueUpdate_some_filterKey_ne k it.1 it.2 hik st.sessions ss2 hup
        have hmid := appVueUpdate_some_map_id it.1 it.2 st.sessions ss2 hup
        refine ⟨s, ⟨?_, ?_⟩, ?_, rfl, hstr⟩
        · show (ss2.map (fun x => x.id)).Nodup
          rw [hmid]
          exact hwf.1
        · intro i hi
          have hi2 : i ∈ st.sessions.map (fun x => x.id) := by
            rw [← hmid]
            exact hi
          exact hwf.2 i hi2
        · rw [hfk]
          exact hkey
  | none =>
      simp only [appVueStep, hup]
      have hs := mem_of_filter_singleton (fun x => keyOf x == k) st.sessions s hkey
      have hkne : it.1.title ++ "-" ++ it.2 ≠ k := by
        intro he
        exact appVueUpdate_none_vals it.1 it.2 st.sessions hup s hs.1
          ((beq_iff_eq.mp hs.2).trans he.symm)
      have hps : ∀ p ∈ st.sessions.filter (fun x => x.date == it.2 && !isStrava x),
          isStrava p = false ∧ p ∈ st.sessions := by
        intro p hp
        have := List.mem_filter.mp hp
        refine ⟨?_, this.1⟩
        have h2 := this.2
        simp only [Bool.and_eq_true] at h2
        simpa using h2.2
      have hrem := removeAll_preserves k s st.sessions hwf.1
        (st.sessions.filter (fun x => x.date == it.2 && !isStrava x)) st hps
        (List.Sublist.refl _) hwf hkey hstr
      refine ⟨s, ?_, ?_, rfl, hstr⟩
      · exact hrem.1.addSession _ _
      · simp only [Store.addSession]
        rw [filterKey_append, hrem.2.1,
          filterKey_singleton_of_ne k (scheduleTemplate it.1
            ((st.sessions.filter (fun x => x.date == it.2 && !isStrava x)).foldl
              (fun acc p => acc.removeSession p.id) st).nextId it.2) hkne]
        simp

lemma appVueLoop_preserves (k : String) :
    ∀ (items : List (SessionTemplate × String)) (st : Store) (s : ScheduledSession),
      StoreWF st → filterKey k st.sessions = [s] → isStrava s = true →
      (∀ it ∈ items, it.1.type = "strava") →
      ∃ s', StoreWF (items.foldl appVueStep st) ∧
        filterKey k (items.foldl appVueStep st).sessions = [s'] ∧
        s'.id = s.id ∧ isStrava s' = true := by
  intro items
  induction items with
  | nil => intro st s hwf hkey hstr _; exact ⟨s, hwf, hkey, rfl, hstr⟩
  | cons it rest ih =>
      intro st s hwf hkey hstr hall
      rw [List.foldl_cons]
      rcases appVueStep_preserves k st it s hwf hkey hstr (hall it (List.mem_cons_self _ _))
        with ⟨s1, hwf1, hkey1, hid1, hstr1⟩
      rcases ih _ s1 hwf1 hkey1 hstr1 (fun j hj => hall j (List.mem_cons_of_mem _ hj))
        with ⟨s2, hwf2, hkey2, hid2, hstr2⟩
      exact ⟨s2, hwf2, hkey2, hid2.trans hid1, hstr2⟩

/-- C1: with an external activity already present as an "actual" session under
the `${title}-${date}` dedup key (the key's unique holder), re-running an
arbitrary import batch never creates a second session with that key: skip-mode sync
leaves the actual session exactly in place, the legacy update-mode sync keeps
exactly one session under the key with its original identifier for any batch,
and on the singleton batch holding the matching activity the update-mode sync
overwrites that session's fields in place with the re-imported activity while
preserving the identifier. -/
theorem no_duplicate_reimport (st : Store) (s0 : ScheduledSession)
    (acts : List StravaDetailedActivity) (a : StravaDetailedActivity) (sp : Sport)
    (hwf : StoreWF st)
    (hkey : filterKey (keyOf s0) st.sessions = [s0])
    (hstr : isStrava s0 = true)
    (hsp : mapStravaToSport a.toStravaActivity = some sp)
    (hak : activityKey a.toStravaActivity = keyOf s0) :
    filterKey (keyOf s0) (syncStrava st acts).sessions = [s0] ∧
    (filterKey (keyOf s0) (appVueSyncStrava st acts).sessions).map (fun s => s.id) = [s0.id] ∧
    filterKey (keyOf s0) (appVueSyncStrava st [a]).sessions
      = [scheduleTemplate (activityTemplate a sp) s0.id (activityDate a.toStravaActivity)] := by
  have hs0 := mem_of_filter_singleton (fun s => keyOf s == keyOf s0) st.sessions s0 hkey
  refine ⟨?_, ?_, ?_⟩
  · rw [syncStrava]
    exact (syncLoop_preserves (keyOf s0) s0 hstr _ st hwf hkey
      (skip_items_key_ne st acts s0 hs0.1 hstr)).2
  · rw [appVueSyncStrava]
    rcases appVueLoop_preserves (keyOf s0) (convertToSessions acts) st s0 hwf hkey hstr
      (convert_items_type acts) with ⟨s1, _, hkey1, hid1, _⟩
    rw [hkey1]
    simp [hid1]
  · rw [appVueSyncStrava, convertToSessions_singleton a sp hsp, List.foldl_cons, List.foldl_nil]
    have hik : (activityTemplate a sp).title ++ "-" ++ activityDate a.toStravaActivity
        = keyOf s0 := hak
    rcases appVueUpdate_some_filterKey_eq (keyOf s0) (activityTemplate a sp)
      (activityDate a.toStravaActivity) hik st.sessions s0 hkey with ⟨ss2, hss2, hfk⟩
    simp only [appVueStep, hss2]
    exact hfk

/-- The already-imported actual session of the C1 witness. -/
@[reducible] def dupActual : ScheduledSession :=
  { sport := Sport.cycling, type := "strava", title := "Morning Ride",
    duration_min := 120, description := "56 km", actual_km := some 56,
    id := 7, date := "2025-03-10" }

/-- The C1 witness store: the actual session is the unique key holder. -/
@[reducible] def dupStore : Store := { sessions := [dupActual], nextId := 8 }

/-- Witness for C1: re-importing the very activity already stored as
"Morning Ride"/2025-03-10. -/
theorem no_duplicate_reimport_witness :
    isStrava dupActual = true ∧
    activityKey dispActivity.toStravaActivity = keyOf dupActual ∧
    (filterKey (keyOf dupActual) (syncStrava dupStore [dispActivity]).sessions = [dupActual] ∧
      (filterKey (keyOf dupActual) (appVueSyncStrava dupStore [dispActivity]).sessions).map
        (fun s => s.id) = [dupActual.id] ∧
      filterKey (keyOf dupActual) (appVueSyncStrava dupStore [dispActivity]).sessions
        = [scheduleTemplate (activityTemplate dispActivity Sport.cycling) dupActual.id
            (activityDate dispActivity.toStravaActivity)]) := by
  refine ⟨by decide, by decide, ?_⟩
  exact no_duplicate_reimport dupStore dupActual [dispActivity] dispActivity Sport.cycling
    ⟨by decide, by decide⟩ (by decide) (by decide) (by decide) (by decide)
